import Mathlib

/-!
Verification of the Intcode virtual machine of `day13.rs`: the growable
memory tape (`InfiniteTape`), the instruction decoder (`ParamMode`,
`OpCode`, `ParamType`), and the execution engine (`Vm` with
`get_param_address`, `execute_operation`, `step`, `run`).

Rust `i64` values are modelled as `Int` (no arithmetic in the claims
approaches the 64-bit boundary), `usize` addresses as `Nat`, and every
`panic!` as an `Except` error carrying a `VmError`.  Rust's truncating
`/` and `%` on `i64` are `Int.tdiv` and `Int.tmod`.
-/

namespace Intcode

/-- The error of each `panic!` site of the interpreter. -/
inductive VmError where
  | unknownParamMode : VmError
  | unknownOpcode : Int → VmError
  | invalidParamNum : Nat → VmError
  | invalidAddress : Int → VmError
  | writeParamImmediate : Nat → Int → VmError
  | cannotJumpNegative : VmError
  | invalidRelativeBase : Int → VmError
  | popEmptyInput : VmError
  | invalidStateAfterStep : VmError
deriving DecidableEq, Repr

/-- `struct InfiniteTape { data: Vec<i64> }`. -/
structure InfiniteTape where
  data : List Int
deriving DecidableEq, Repr

/-- `InfiniteTape::set`: resize with zero fill when the index is past the
end, then store. -/
def InfiniteTape.set (t : InfiniteTape) (index : Nat) (value : Int) : InfiniteTape :=
  ⟨(if index ≥ t.data.length
    then t.data ++ List.replicate (index + 1 - t.data.length) 0
    else t.data).set index value⟩

/-- `InfiniteTape::get`: 0 beyond the current extent, else the stored value. -/
def InfiniteTape.get (t : InfiniteTape) (index : Nat) : Int :=
  if index ≥ t.data.length then 0 else t.data.getD index 0

/-- `enum ParamMode`. -/
inductive ParamMode where
  | Position : ParamMode
  | Immediate : ParamMode
  | Relative : ParamMode
deriving DecidableEq, Repr

/-- `ParamMode::read`: digit `(instruction / 10^(param_num+1)) % 10`,
`0 => Position, 1 => Immediate, 2 => Relative`, anything else fatal. -/
def ParamMode.read (instruction : Int) (param_num : Nat) : Except VmError ParamMode :=
  let digit_base : Int := 10 ^ (param_num + 1)
  let d := (instruction.tdiv digit_base).tmod 10
  if d = 0 then .ok .Position
  else if d = 1 then .ok .Immediate
  else if d = 2 then .ok .Relative
  else .error .unknownParamMode

/-- `enum OpCode`. -/
inductive OpCode where
  | Add : OpCode
  | Mul : OpCode
  | Input : OpCode
  | Output : OpCode
  | JumpIfTrue : OpCode
  | JumpIfFalse : OpCode
  | LessThan : OpCode
  | Equals : OpCode
  | AdjustRelativeBase : OpCode
  | Terminate : OpCode
deriving DecidableEq, Repr

/-- `enum ParamType`. -/
inductive ParamType where
  | Read : ParamType
  | Write : ParamType
deriving DecidableEq, Repr

/-- `OpCode::read`: `instruction % 100` against the fixed opcode table,
unknown residues fatal. -/
def OpCode.read (instruction : Int) : Except VmError OpCode :=
  let m := instruction.tmod 100
  if m = 1 then .ok .Add
  else if m = 2 then .ok .Mul
  else if m = 3 then .ok .Input
  else if m = 4 then .ok .Output
  else if m = 5 then .ok .JumpIfTrue
  else if m = 6 then .ok .JumpIfFalse
  else if m = 7 then .ok .LessThan
  else if m = 8 then .ok .Equals
  else if m = 9 then .ok .AdjustRelativeBase
  else if m = 99 then .ok .Terminate
  else .error (.unknownOpcode instruction)

/-- `OpCode::get_param_count`. -/
def OpCode.get_param_count : OpCode → Nat
  | .Add => 3
  | .Mul => 3
  | .Input => 1
  | .Output => 1
  | .JumpIfTrue => 2
  | .JumpIfFalse => 2
  | .LessThan => 3
  | .Equals => 3
  | .AdjustRelativeBase => 1
  | .Terminate => 0

/-- `OpCode::get_param_type`: the static Read/Write classification of each
parameter position, invalid positions fatal. -/
def OpCode.get_param_type (op : OpCode) (param_num : Nat) : Except VmError ParamType :=
  match op with
  | .Add | .Mul | .LessThan | .Equals =>
    if param_num = 1 ∨ param_num = 2 then .ok .Read
    else if param_num = 3 then .ok .Write
    else .error (.invalidParamNum param_num)
  | .Input =>
    if param_num = 1 then .ok .Write
    else .error (.invalidParamNum param_num)
  | .Output | .AdjustRelativeBase =>
    if param_num = 1 then .ok .Read
    else .error (.invalidParamNum param_num)
  | .JumpIfTrue | .JumpIfFalse =>
    if param_num = 1 ∨ param_num = 2 then .ok .Read
    else .error (.invalidParamNum param_num)
  | .Terminate => .error (.invalidParamNum param_num)

/-- `enum VmState`. -/
inductive VmState where
  | NotStarted : VmState
  | Running : VmState
  | WaitForInput : VmState
  | Terminated : VmState
deriving DecidableEq, Repr

/-- `struct Vm` with `VecDeque<i64>` ports (front of the list = front of the
queue for the input source; the output sink appends at the back). -/
structure Vm where
  memory : InfiniteTape
  instruction_pointer : Nat
  input_source : List Int
  output_sink : List Int
  state : VmState
  relative_base : Nat
deriving DecidableEq, Repr

/-- `Vm::new`. -/
def Vm.new (program : List Int) : Vm where
  memory := ⟨program⟩
  instruction_pointer := 0
  input_source := []
  output_sink := []
  state := .NotStarted
  relative_base := 0

/-- `InputSource for VecDeque<i64>`: `read` panics on an empty queue, else
pops the front value. -/
def inputSourceRead (q : List Int) : Except VmError (Int × List Int) :=
  match q with
  | [] => .error .popEmptyInput
  | x :: rest => .ok (x, rest)

/-- `Vm::get_param_address`. -/
def Vm.get_param_address (vm : Vm) (op_code : OpCode) (param_num : Nat) :
    Except VmError Nat :=
  let ip := vm.instruction_pointer
  let param_pointer := ip + param_num
  match ParamMode.read (vm.memory.get ip) param_num with
  | .error e => .error e
  | .ok .Position =>
    let address := vm.memory.get param_pointer
    if address < 0 then .error (.invalidAddress address)
    else .ok address.toNat
  | .ok .Immediate =>
    match op_code.get_param_type param_num with
    | .error e => .error e
    | .ok pt =>
      if pt = .Write then .error (.writeParamImmediate param_num (vm.memory.get ip))
      else .ok param_pointer
  | .ok .Relative =>
    let address := vm.memory.get param_pointer + (vm.relative_base : Int)
    if address < 0 then .error (.invalidAddress address)
    else .ok address.toNat

/-- The closure `get_param`: the value at a parameter's effective address. -/
def Vm.get_param (vm : Vm) (op_code : OpCode) (param_num : Nat) : Except VmError Int :=
  match vm.get_param_address op_code param_num with
  | .error e => .error e
  | .ok addr => .ok (vm.memory.get addr)

/-- `Vm::execute_operation`: the opcode's effect plus `Some new_ip`
(`None` for Terminate). -/
def Vm.execute_operation (vm : Vm) (op_code : OpCode) :
    Except VmError (Vm × Option Nat) :=
  let advance : Option Nat := some (vm.instruction_pointer + 1 + op_code.get_param_count)
  match op_code with
  | .Add =>
    match vm.get_param_address .Add 3 with
    | .error e => .error e
    | .ok addr =>
      match vm.get_param .Add 1, vm.get_param .Add 2 with
      | .error e, _ => .error e
      | .ok _, .error e => .error e
      | .ok a, .ok b => .ok ({ vm with memory := vm.memory.set addr (a + b) }, advance)
  | .Mul =>
    match vm.get_param_address .Mul 3 with
    | .error e => .error e
    | .ok addr =>
      match vm.get_param .Mul 1, vm.get_param .Mul 2 with
      | .error e, _ => .error e
      | .ok _, .error e => .error e
      | .ok a, .ok b => .ok ({ vm with memory := vm.memory.set addr (a * b) }, advance)
  | .Input =>
    match vm.get_param_address .Input 1 with
    | .error e => .error e
    | .ok addr =>
      match inputSourceRead vm.input_source with
      | .error e => .error e
      | .ok (v, rest) =>
        .ok ({ vm with memory := vm.memory.set addr v, input_source := rest }, advance)
  | .Output =>
    match vm.get_param .Output 1 with
    | .error e => .error e
    | .ok v => .ok ({ vm with output_sink := vm.output_sink ++ [v] }, advance)
  | .JumpIfTrue =>
    match vm.get_param_address .JumpIfTrue 1 with
    | .error e => .error e
    | .ok addr =>
      if vm.memory.get addr ≠ 0 then
        match vm.get_param .JumpIfTrue 2 with
        | .error e => .error e
        | .ok v =>
          if v < 0 then .error .cannotJumpNegative
          else .ok (vm, some v.toNat)
      else .ok (vm, advance)
  | .JumpIfFalse =>
    match vm.get_param_address .JumpIfFalse 1 with
    | .error e => .error e
    | .ok addr =>
      if vm.memory.get addr = 0 then
        match vm.get_param .JumpIfFalse 2 with
        | .error e => .error e
        | .ok v =>
          if v < 0 then .error .cannotJumpNegative
          else .ok (vm, some v.toNat)
      else .ok (vm, advance)
  | .LessThan =>
    match vm.get_param_address .LessThan 3 with
    | .error e => .error e
    | .ok addr =>
      match vm.get_param .LessThan 1, vm.get_param .LessThan 2 with
      | .error e, _ => .error e
      | .ok _, .error e => .error e
      | .ok a, .ok b =>
        .ok ({ vm with memory := vm.memory.set addr (if a < b then 1 else 0) }, advance)
  | .Equals =>
    match vm.get_param_address .Equals 3 with
    | .error e => .error e
    | .ok addr =>
      match vm.get_param .Equals 1, vm.get_param .Equals 2 with
      | .error e, _ => .error e
      | .ok _, .error e => .error e
      | .ok a, .ok b =>
        .ok ({ vm with memory := vm.memory.set addr (if a = b then 1 else 0) }, advance)
  | .AdjustRelativeBase =>
    match vm.get_param .AdjustRelativeBase 1 with
    | .error e => .error e
    | .ok v =>
      let new_base := (vm.relative_base : Int) + v
      if new_base < 0 then .error (.invalidRelativeBase new_base)
      else .ok ({ vm with relative_base := new_base.toNat }, advance)
  | .Terminate => .ok (vm, none)

/-- `Vm::step`: executes one instruction, suspending before the effect when
the opcode is Input and the input port is empty. -/
def Vm.step (vm : Vm) : Except VmError (Vm × VmState) :=
  let vm := { vm with state := VmState.Running }
  match OpCode.read (vm.memory.get vm.instruction_pointer) with
  | .error e => .error e
  | .ok op_code =>
    if op_code = .Input ∧ vm.input_source.length = 0 then
      let vm := { vm with state := VmState.WaitForInput }
      .ok (vm, vm.state)
    else
      match vm.execute_operation op_code with
      | .error e => .error e
      | .ok (vm', new_ip) =>
        match new_ip with
        | some v =>
          let vm'' := { vm' with instruction_pointer := v }
          .ok (vm'', vm''.state)
        | none =>
          let vm'' := { vm' with state := VmState.Terminated }
          .ok (vm'', vm''.state)

/-- `Vm::run`: step until WaitForInput or Terminated.  The Rust loop has no
fuel; `none` is returned when the fuel runs out before the loop breaks. -/
def Vm.run (vm : Vm) : Nat → Except VmError (Option (Vm × VmState))
  | 0 => .ok none
  | fuel + 1 =>
    match vm.step with
    | .error e => .error e
    | .ok (vm', st) =>
      match st with
      | .NotStarted => .error .invalidStateAfterStep
      | .Running => vm'.run fuel
      | .WaitForInput => .ok (some (vm', st))
      | .Terminated => .ok (some (vm', st))

/-- The quine-like relative-mode test program of the spec. -/
def quineProgram : List Int :=
  [109, 1, 204, -1, 1001, 100, 1, 100, 1008, 100, 16, 101, 1006, 101, 0, 99]

/-- The observable outcome of a fresh VM run on a program with no input:
the final status and the emitted output, `none` when the run errors or the
fuel runs out. -/
def runOutcome (program : List Int) (fuel : Nat) : Option (VmState × List Int) :=
  match (Vm.new program).run fuel with
  | .ok (some (vm, st)) => some (st, vm.output_sink)
  | _ => none

/-! ### Tape lemmas -/

theorem InfiniteTape.get_eq_getD (t : InfiniteTape) (i : Nat) :
    t.get i = t.data.getD i 0 := by
  unfold InfiniteTape.get
  split
  · next h =>
    rw [List.getD_eq_getElem?_getD, List.getElem?_eq_none (by omega)]
    rfl
  · rfl

theorem InfiniteTape.length_set_data (t : InfiniteTape) (a : Nat) (v : Int) :
    (t.set a v).data.length = max (a + 1) t.data.length := by
  show ((if a ≥ t.data.length
    then t.data ++ List.replicate (a + 1 - t.data.length) 0
    else t.data).set a v).length = max (a + 1) t.data.length
  rw [List.length_set]
  split <;> simp <;> omega

theorem InfiniteTape.get_set_self (t : InfiniteTape) (a : Nat) (v : Int) :
    (t.set a v).get a = v := by
  have hlen : a < (t.set a v).data.length := by
    rw [InfiniteTape.length_set_data]; omega
  rw [InfiniteTape.get_eq_getD, List.getD_eq_getElem?_getD]
  show ((if a ≥ t.data.length
    then t.data ++ List.replicate (a + 1 - t.data.length) 0
    else t.data).set a v)[a]?.getD 0 = v
  rw [List.getElem?_set_self (by simpa [InfiniteTape.set] using hlen)]
  rfl

theorem InfiniteTape.get_set_of_ne (t : InfiniteTape) (a b : Nat) (v : Int)
    (hne : b ≠ a) : (t.set a v).get b = t.get b := by
  rw [InfiniteTape.get_eq_getD, InfiniteTape.get_eq_getD,
    List.getD_eq_getElem?_getD, List.getD_eq_getElem?_getD]
  show ((if a ≥ t.data.length
    then t.data ++ List.replicate (a + 1 - t.data.length) 0
    else t.data).set a v)[b]?.getD 0 = t.data[b]?.getD 0
  rw [List.getElem?_set_ne (fun h => hne h.symm)]
  split
  · next hge =>
    rw [List.getElem?_append]
    split
    · rfl
    · next hb =>
      rw [List.getElem?_replicate]
      rw [show t.data[b]? = none from List.getElem?_eq_none (by omega)]
      split <;> rfl
  · rfl

/-! ### Claim theorems -/

/-- C7: `get` is total and returns 0 for every address at or beyond the
current extent (hence also for any address up to 10,000 or more past the
initial program length); after `set addr v`, `get addr` returns `v` and
`get b` is unchanged for every other address `b`. -/
theorem C7_tape_contract (t : InfiniteTape) (a b : Nat) (v : Int) :
    (t.data.length ≤ a → t.get a = 0) ∧
    (t.set a v).get a = v ∧
    (b ≠ a → (t.set a v).get b = t.get b) := by
  refine ⟨fun h => ?_, InfiniteTape.get_set_self t a v,
    fun hne => InfiniteTape.get_set_of_ne t a b v hne⟩
  unfold InfiniteTape.get
  rw [if_pos (by omega)]

set_option maxRecDepth 20000 in
/-- C2: the VM constructed from the quine-like relative-mode program with
an empty input port runs to Terminated and emits exactly its own 16-value
program image. -/
theorem C2_quine_emits_itself :
    runOutcome quineProgram 200 = some (.Terminated, quineProgram) := by
  rfl

set_option maxHeartbeats 2000000 in
/-- C4: the decoder maps `raw mod 100` (truncating Rust `%`) to the fixed
opcode table `{1:Add, 2:Mul, 3:Input, 4:Output, 5:JumpIfTrue,
6:JumpIfFalse, 7:LessThan, 8:Equals, 9:AdjustRelativeBase, 99:Terminate}`
and every residue outside the table is a fatal decode error. -/
theorem C4_opcode_decode_table (raw : Int) :
    (OpCode.read raw = .ok .Add ↔ raw.tmod 100 = 1) ∧
    (OpCode.read raw = .ok .Mul ↔ raw.tmod 100 = 2) ∧
    (OpCode.read raw = .ok .Input ↔ raw.tmod 100 = 3) ∧
    (OpCode.read raw = .ok .Output ↔ raw.tmod 100 = 4) ∧
    (OpCode.read raw = .ok .JumpIfTrue ↔ raw.tmod 100 = 5) ∧
    (OpCode.read raw = .ok .JumpIfFalse ↔ raw.tmod 100 = 6) ∧
    (OpCode.read raw = .ok .LessThan ↔ raw.tmod 100 = 7) ∧
    (OpCode.read raw = .ok .Equals ↔ raw.tmod 100 = 8) ∧
    (OpCode.read raw = .ok .AdjustRelativeBase ↔ raw.tmod 100 = 9) ∧
    (OpCode.read raw = .ok .Terminate ↔ raw.tmod 100 = 99) ∧
    (OpCode.read raw = .error (.unknownOpcode raw) ↔
      raw.tmod 100 ∉ ([1, 2, 3, 4, 5, 6, 7, 8, 9, 99] : List Int)) := by
  simp only [OpCode.read]
  split_ifs with h1 h2 h3 h4 h5 h6 h7 h8 h9 h10 <;>
    refine ⟨?_, ?_, ?_, ?_, ?_, ?_, ?_, ?_, ?_, ?_, ?_⟩ <;>
    simp_all

/-- C5: a parameter whose decoded addressing mode is Immediate resolves to
a fatal error exactly when the parameter position is Write-classified; a
Read-classified parameter in Immediate mode resolves to `ip + param_num`
without error. -/
theorem C5_write_immediate_fatal (vm : Vm) (op : OpCode) (n : Nat)
    (hmode : ParamMode.read (vm.memory.get vm.instruction_pointer) n = .ok .Immediate) :
    (op.get_param_type n = .ok .Write →
      vm.get_param_address op n =
        .error (.writeParamImmediate n (vm.memory.get vm.instruction_pointer))) ∧
    (op.get_param_type n = .ok .Read →
      vm.get_param_address op n = .ok (vm.instruction_pointer + n)) := by
  simp only [Vm.get_param_address]
  rw [hmode]
  constructor <;> intro h <;> rw [h] <;> simp

/-- Witness for C5 at the concrete instruction 103 (`Input` with its single
Write parameter in Immediate mode: fatal) and, vacuously instantiated on
the same opcode, the Read direction. -/
theorem C5_witness :
    (OpCode.Input.get_param_type 1 = .ok .Write →
      (Vm.new [103, 0]).get_param_address .Input 1 =
        .error (.writeParamImmediate 1 103)) ∧
    (OpCode.Input.get_param_type 1 = .ok .Read →
      (Vm.new [103, 0]).get_param_address .Input 1 = .ok 1) :=
  C5_write_immediate_fatal (Vm.new [103, 0]) .Input 1 (by rfl)

/-- C1: decoding Input with an empty input port suspends: `step` only sets
the status to WaitForInput (tape, instruction pointer, relative base and
ports untouched), and `run` on such a parked VM returns WaitForInput again
with the VM unchanged apart from that status. -/
theorem C1_input_empty_suspends (vm : Vm)
    (hop : OpCode.read (vm.memory.get vm.instruction_pointer) = .ok .Input)
    (hempty : vm.input_source.length = 0) :
    vm.step = .ok ({ vm with state := .WaitForInput }, .WaitForInput) ∧
    ∀ fuel, vm.run (fuel + 1) =
      .ok (some ({ vm with state := .WaitForInput }, .WaitForInput)) := by
  have hstep : vm.step = .ok ({ vm with state := .WaitForInput }, .WaitForInput) := by
    simp only [Vm.step]
    rw [hop]
    simp [hempty]
  exact ⟨hstep, fun fuel => by rw [Vm.run, hstep]⟩

/-- Witness for C1: the program `[3,0,99]` with no input parks at once. -/
theorem C1_witness :
    (Vm.new [3, 0, 99]).step =
      .ok ({ Vm.new [3, 0, 99] with state := .WaitForInput }, .WaitForInput) ∧
    ∀ fuel, (Vm.new [3, 0, 99]).run (fuel + 1) =
      .ok (some ({ Vm.new [3, 0, 99] with state := .WaitForInput }, .WaitForInput)) :=
  C1_input_empty_suspends (Vm.new [3, 0, 99]) (by rfl) (by rfl)

/-! ### Execution-engine lemmas -/

theorem exec_none_terminate (vm vm₂ : Vm) (op : OpCode)
    (h : vm.execute_operation op = .ok (vm₂, none)) : op = .Terminate ∧ vm₂ = vm := by
  cases op <;> simp only [Vm.execute_operation] at h
  case Terminate =>
    refine ⟨rfl, ?_⟩
    injection h with h'
    exact (congrArg Prod.fst h').symm
  all_goals (repeat' split at h) <;> simp_all

theorem exec_preserves_state (vm : Vm) (op : OpCode) (vm₂ : Vm) (r : Option Nat)
    (h : vm.execute_operation op = .ok (vm₂, r)) : vm₂.state = vm.state := by
  cases op <;> simp only [Vm.execute_operation] at h <;>
    (repeat' split at h) <;> simp_all <;> simp [← h.1]

/-- C10: a `step` on a VM that a previous `step` left Terminated re-decodes
the same Terminate instruction (the instruction pointer was not advanced)
and returns the very same VM — tape, instruction pointer, relative base and
ports unchanged — with status Terminated again. -/
theorem C10_terminated_step_idempotent (vm vm' : Vm)
    (h : vm.step = .ok (vm', .Terminated)) :
    vm'.step = .ok (vm', .Terminated) := by
  simp only [Vm.step] at h
  split at h
  · simp at h
  · next op heq =>
    split at h
    · simp at h
    · next hc =>
      split at h
      · simp at h
      · next vm₂ newIp heq2 =>
        have hst := exec_preserves_state _ _ _ _ heq2
        split at h
        · simp at h
          exact absurd (h.2 ▸ hst) (by simp)
        · have hterm := exec_none_terminate _ _ _ heq2
          simp only [hterm.1] at heq
          obtain ⟨rfl⟩ : vm₂ = { vm with state := .Running } := hterm.2
          simp only [Except.ok.injEq, Prod.mk.injEq] at h
          obtain ⟨rfl, -⟩ := h
          simp only [Vm.step]
          rw [heq]
          rfl

/-- Witness for C10: running `step` on the VM the program `[99]` terminates
into returns the same VM, Terminated again. -/
theorem C10_witness :
    ({ Vm.new [99] with state := VmState.Terminated } : Vm).step =
      .ok ({ Vm.new [99] with state := VmState.Terminated }, .Terminated) :=
  C10_terminated_step_idempotent (Vm.new [99]) _ (by rfl)

theorem step_status (vm vm' : Vm) (st : VmState) (h : vm.step = .ok (vm', st)) :
    st = .Running ∨ st = .WaitForInput ∨ st = .Terminated := by
  simp only [Vm.step] at h
  split at h
  · simp at h
  · next op heq =>
    split at h
    · simp at h
      exact Or.inr (Or.inl h.2.symm)
    · split at h
      · simp at h
      · next vm₂ newIp heq2 =>
        have hst := exec_preserves_state _ _ _ _ heq2
        simp at hst
        split at h <;> simp at h
        · exact Or.inl (h.2.symm.trans hst)
        · exact Or.inr (Or.inr h.2.symm)

theorem run_ok_status (fuel : Nat) : ∀ (vm vm' : Vm) (st : VmState),
    vm.run fuel = .ok (some (vm', st)) → st = .WaitForInput ∨ st = .Terminated := by
  induction fuel with
  | zero =>
    intro vm vm' st h
    simp [Vm.run] at h
  | succ f ih =>
    intro vm vm' st h
    rw [Vm.run] at h
    split at h
    · simp at h
    · split at h
      · simp at h
      · exact ih _ _ _ h
      · simp at h
        exact Or.inl h.2.symm
      · simp at h
        exact Or.inr h.2.symm

/-- C8 (amended): every `run()` return carries status WaitForInput or
Terminated, but a `step()` that executed a regular instruction returns
Running — so after `step()` the observable statuses are Running,
WaitForInput and Terminated, not just the latter two as claimed. -/
theorem C8_observable_status (vm : Vm) (fuel : Nat) :
    (∀ vm' st, vm.run fuel = .ok (some (vm', st)) →
      st = .WaitForInput ∨ st = .Terminated) ∧
    (∀ vm' st, vm.step = .ok (vm', st) →
      st = .Running ∨ st = .WaitForInput ∨ st = .Terminated) :=
  ⟨fun vm' st h => run_ok_status fuel vm vm' st h,
   fun vm' st h => step_status vm vm' st h⟩

/-- Counterexample to C8 as stated: on the program `[1101,2,3,0,99]` the
first `step()` executes the Add instruction and returns with status
Running, which is neither Terminated nor WaitForInput. -/
theorem C8_counterexample :
    (Vm.new [1101, 2, 3, 0, 99]).step =
      .ok ({ memory := ⟨[5, 2, 3, 0, 99]⟩, instruction_pointer := 4,
             input_source := [], output_sink := [], state := .Running,
             relative_base := 0 }, .Running) ∧
    VmState.Running ≠ .WaitForInput ∧ VmState.Running ≠ .Terminated :=
  ⟨by rfl, by simp, by simp⟩

/-- The exact shape of the new instruction pointer after an executed
instruction: every opcode other than the two jumps advances by
`1 + arity`; a jump whose branch condition holds (JumpIfTrue with a
non-zero first parameter, JumpIfFalse with a zero one) sets the
instruction pointer to precisely the value of its second parameter; a
jump whose branch condition fails falls through to the default advance. -/
def ipAdvanceSpec (vm : Vm) (op : OpCode) (ip' : Nat) : Prop :=
  (op ≠ .JumpIfTrue → op ≠ .JumpIfFalse →
    ip' = vm.instruction_pointer + 1 + op.get_param_count) ∧
  (op = .JumpIfTrue ∨ op = .JumpIfFalse →
    ∃ a₁, vm.get_param_address op 1 = .ok a₁ ∧
      ((op = .JumpIfTrue ∧ vm.memory.get a₁ ≠ 0 ∨
        op = .JumpIfFalse ∧ vm.memory.get a₁ = 0) →
        ∃ a₂, vm.get_param_address op 2 = .ok a₂ ∧
          (ip' : Int) = vm.memory.get a₂) ∧
      ((op = .JumpIfTrue ∧ vm.memory.get a₁ = 0 ∨
        op = .JumpIfFalse ∧ vm.memory.get a₁ ≠ 0) →
        ip' = vm.instruction_pointer + 1 + op.get_param_count))

theorem get_param_ok (vm : Vm) (op : OpCode) (n : Nat) (v : Int)
    (h : vm.get_param op n = .ok v) :
    ∃ a, vm.get_param_address op n = .ok a ∧ vm.memory.get a = v := by
  simp only [Vm.get_param] at h
  split at h
  · simp at h
  · next a heq =>
    exact ⟨a, heq, Except.ok.inj h⟩

/-- C3: whenever `execute_operation` completes with a new instruction
pointer, that pointer is `ip + 1 + arity` for every non-jump opcode and
for a jump whose branch condition fails, and it is exactly the value of
the second parameter for a JumpIfTrue whose first parameter is non-zero
or a JumpIfFalse whose first parameter is zero. -/
theorem C3_ip_advance (vm vm' : Vm) (op : OpCode) (ip' : Nat)
    (h : vm.execute_operation op = .ok (vm', some ip')) :
    ipAdvanceSpec vm op ip' := by
  cases op
  case JumpIfTrue =>
    simp only [Vm.execute_operation] at h
    split at h
    · simp at h
    · next a₁ heq1 =>
      split at h
      · next hcond =>
        split at h
        · simp at h
        · next v heqv =>
          split at h
          · simp at h
          · next hneg =>
            simp only [Except.ok.injEq, Prod.mk.injEq, Option.some.injEq] at h
            obtain ⟨-, hip⟩ := h
            obtain ⟨a₂, heq2, hv⟩ := get_param_ok _ _ _ _ heqv
            refine ⟨fun hne _ => absurd rfl hne,
              fun _ => ⟨a₁, heq1, fun _ => ⟨a₂, heq2, ?_⟩, fun hbr => ?_⟩⟩
            · rw [hv, ← hip]
              exact Int.toNat_of_nonneg (by omega)
            · rcases hbr with ⟨-, hzero⟩ | ⟨hfalse, -⟩
              · exact absurd hzero hcond
              · exact absurd hfalse (by decide)
      · next hcond =>
        simp only [Except.ok.injEq, Prod.mk.injEq, Option.some.injEq] at h
        obtain ⟨-, hip⟩ := h
        refine ⟨fun hne _ => absurd rfl hne,
          fun _ => ⟨a₁, heq1, fun hbr => ?_, fun _ => hip.symm⟩⟩
        rcases hbr with ⟨-, hne⟩ | ⟨hfalse, -⟩
        · exact absurd hne hcond
        · exact absurd hfalse (by decide)
  case JumpIfFalse =>
    simp only [Vm.execute_operation] at h
    split at h
    · simp at h
    · next a₁ heq1 =>
      split at h
      · next hcond =>
        split at h
        · simp at h
        · next v heqv =>
          split at h
          · simp at h
          · next hneg =>
            simp only [Except.ok.injEq, Prod.mk.injEq, Option.some.injEq] at h
            obtain ⟨-, hip⟩ := h
            obtain ⟨a₂, heq2, hv⟩ := get_param_ok _ _ _ _ heqv
            refine ⟨fun _ hne => absurd rfl hne,
              fun _ => ⟨a₁, heq1, fun _ => ⟨a₂, heq2, ?_⟩, fun hbr => ?_⟩⟩
            · rw [hv, ← hip]
              exact Int.toNat_of_nonneg (by omega)
            · rcases hbr with ⟨hfalse, -⟩ | ⟨-, hne⟩
              · exact absurd hfalse (by decide)
              · exact absurd hcond hne
      · next hcond =>
        simp only [Except.ok.injEq, Prod.mk.injEq, Option.some.injEq] at h
        obtain ⟨-, hip⟩ := h
        refine ⟨fun _ hne => absurd rfl hne,
          fun _ => ⟨a₁, heq1, fun hbr => ?_, fun _ => hip.symm⟩⟩
        rcases hbr with ⟨hfalse, -⟩ | ⟨-, hzero⟩
        · exact absurd hfalse (by decide)
        · exact absurd hzero hcond
  all_goals
    (simp only [Vm.execute_operation] at h
     (repeat' split at h) <;> simp_all [ipAdvanceSpec, OpCode.get_param_count])

/-- Witness for C3: the taken JumpIfTrue of `[1105,1,7]` (immediate
parameters 1 and 7, branch condition non-zero) sets the instruction
pointer to 7, the value of its second parameter. -/
theorem C3_witness : ipAdvanceSpec (Vm.new [1105, 1, 7]) .JumpIfTrue 7 :=
  C3_ip_advance (Vm.new [1105, 1, 7]) (Vm.new [1105, 1, 7]) .JumpIfTrue 7 (by rfl)

/-- C6: a Position-mode parameter with a negative raw value, a
Relative-mode parameter whose raw value plus relative base is negative, a
taken jump whose target is negative, and an AdjustRelativeBase whose new
base would be negative, are each a fatal error; the corresponding
non-negative results all resolve without error. -/
theorem C6_negative_address_fatal (vm : Vm) (op : OpCode) (n : Nat) :
    (ParamMode.read (vm.memory.get vm.instruction_pointer) n = .ok .Position →
      (vm.memory.get (vm.instruction_pointer + n) < 0 →
        vm.get_param_address op n =
          .error (.invalidAddress (vm.memory.get (vm.instruction_pointer + n)))) ∧
      (0 ≤ vm.memory.get (vm.instruction_pointer + n) →
        vm.get_param_address op n =
          .ok (vm.memory.get (vm.instruction_pointer + n)).toNat)) ∧
    (ParamMode.read (vm.memory.get vm.instruction_pointer) n = .ok .Relative →
      (vm.memory.get (vm.instruction_pointer + n) + (vm.relative_base : Int) < 0 →
        vm.get_param_address op n =
          .error (.invalidAddress
            (vm.memory.get (vm.instruction_pointer + n) + vm.relative_base))) ∧
      (0 ≤ vm.memory.get (vm.instruction_pointer + n) + (vm.relative_base : Int) →
        vm.get_param_address op n =
          .ok (vm.memory.get (vm.instruction_pointer + n) + vm.relative_base).toNat)) ∧
    (∀ a₁ v, (op = .JumpIfTrue ∧ vm.memory.get a₁ ≠ 0 ∨
              op = .JumpIfFalse ∧ vm.memory.get a₁ = 0) →
      vm.get_param_address op 1 = .ok a₁ →
      vm.get_param op 2 = .ok v →
      (v < 0 → vm.execute_operation op = .error .cannotJumpNegative) ∧
      (0 ≤ v → vm.execute_operation op = .ok (vm, some v.toNat))) ∧
    (∀ v, vm.get_param .AdjustRelativeBase 1 = .ok v →
      ((vm.relative_base : Int) + v < 0 →
        vm.execute_operation .AdjustRelativeBase =
          .error (.invalidRelativeBase (vm.relative_base + v))) ∧
      (0 ≤ (vm.relative_base : Int) + v →
        vm.execute_operation .AdjustRelativeBase =
          .ok ({ vm with relative_base := ((vm.relative_base : Int) + v).toNat },
            some (vm.instruction_pointer + 1 +
              OpCode.get_param_count .AdjustRelativeBase)))) := by
  refine ⟨fun hmode => ?_, fun hmode => ?_, fun a₁ v hbr h1 h2 => ?_, fun v hv => ?_⟩
  · simp only [Vm.get_param_address, hmode]
    constructor <;> intro h
    · rw [if_pos h]
    · rw [if_neg (by omega)]
  · simp only [Vm.get_param_address, hmode]
    constructor <;> intro h
    · rw [if_pos h]
    · rw [if_neg (by omega)]
  · rcases hbr with ⟨rfl, hcond⟩ | ⟨rfl, hcond⟩ <;>
      simp only [Vm.execute_operation, h1, h2] <;>
      rw [if_pos hcond] <;>
      constructor <;> intro hsign
    · rw [if_pos hsign]
    · rw [if_neg (by omega)]
    · rw [if_pos hsign]
    · rw [if_neg (by omega)]
  · simp only [Vm.execute_operation, hv]
    constructor <;> intro hsign
    · rw [if_pos hsign]
    · rw [if_neg (by omega)]

theorem paramMode_read_error (instruction : Int) (n : Nat) (e : VmError)
    (h : ParamMode.read instruction n = .error e) : e = .unknownParamMode := by
  simp only [ParamMode.read] at h
  split_ifs at h
  simp_all

theorem get_param_type_error (op : OpCode) (n : Nat) (e : VmError)
    (h : op.get_param_type n = .error e) : e = .invalidParamNum n := by
  cases op <;>
    (simp only [OpCode.get_param_type] at h
     first
     | (split_ifs at h <;> simp_all)
     | simp_all)

theorem gpa_error_ne_pop (vm : Vm) (op : OpCode) (n : Nat) (e : VmError)
    (h : vm.get_param_address op n = .error e) : e ≠ .popEmptyInput := by
  simp only [Vm.get_param_address] at h
  split at h
  · next e' heq =>
    injection h with h'
    subst h'
    rw [paramMode_read_error _ _ _ heq]
    simp
  · split_ifs at h
    injection h with h'
    subst h'
    simp
  · split at h
    · next e' heq =>
      injection h with h'
      subst h'
      rw [get_param_type_error _ _ _ heq]
      simp
    · split_ifs at h
      injection h with h'
      subst h'
      simp
  · split_ifs at h
    injection h with h'
    subst h'
    simp

theorem get_param_error_ne_pop (vm : Vm) (op : OpCode) (n : Nat) (e : VmError)
    (h : vm.get_param op n = .error e) : e ≠ .popEmptyInput := by
  simp only [Vm.get_param] at h
  split at h
  · next e' heq =>
    exact (Except.error.inj h) ▸ gpa_error_ne_pop _ _ _ _ heq
  · simp at h

theorem exec_error_ne_pop (vm : Vm) (op : OpCode) (e : VmError)
    (hin : op = .Input → vm.input_source ≠ [])
    (h : vm.execute_operation op = .error e) : e ≠ .popEmptyInput := by
  cases op <;> simp only [Vm.execute_operation] at h
  case Input =>
    split at h
    · next e' heq =>
      exact (Except.error.inj h) ▸ gpa_error_ne_pop _ _ _ _ heq
    · split at h
      · next e' heq =>
        cases hq : vm.input_source with
        | nil => exact absurd hq (hin rfl)
        | cons x rest =>
          rw [hq] at heq
          simp [inputSourceRead] at heq
      · simp at h
  all_goals
    (repeat' split at h) <;>
      first
      | (rename_i heq
         exact (Except.error.inj h) ▸ gpa_error_ne_pop _ _ _ _ heq)
      | (rename_i heq
         exact (Except.error.inj h) ▸ get_param_error_ne_pop _ _ _ _ heq)
      | simp [← Except.error.inj h]
      | simp_all

/-- Whether a `step` on this VM hits the defensive `panic!` of
`InputSource::read` (pop from an empty input source). -/
def stepPopsEmptyInput (vm : Vm) : Bool :=
  match vm.step with
  | .error .popEmptyInput => true
  | _ => false

set_option maxHeartbeats 1000000 in
theorem opcode_read_error (instruction : Int) (e : VmError)
    (h : OpCode.read instruction = .error e) : e = .unknownOpcode instruction := by
  simp only [OpCode.read] at h
  split_ifs at h
  injection h with h'
  subst h'
  rfl

theorem step_error_ne_pop (vm : Vm) (e : VmError) (h : vm.step = .error e) :
    e ≠ .popEmptyInput := by
  simp only [Vm.step] at h
  split at h
  · next e' heq =>
    injection h with h'
    subst h'
    rw [opcode_read_error _ _ heq]
    simp
  · next op heq =>
    split at h
    · simp at h
    · next hc =>
      split at h
      · next e' heq2 =>
        injection h with h'
        subst h'
        refine exec_error_ne_pop _ _ _ ?_ heq2
        intro hop hq
        simp at hq
        exact hc ⟨hop, by simp [hq]⟩
      · split at h <;> simp at h

/-- C9: under `step`'s own sequencing (the WaitForInput pre-check), the
fatal pop-from-empty-input branch is unreachable: no `step` on any VM ever
returns that error. -/
theorem C9_pop_empty_unreachable (vm : Vm) : stepPopsEmptyInput vm = false := by
  unfold stepPopsEmptyInput
  split
  · next heq => exact absurd rfl (step_error_ne_pop vm _ heq)
  · rfl

end Intcode
